import Mathlib

/-!
Shallow embedding of the blvdiff VS Code extension
(src/blvdiff/extension.js, with the variant implementations in
src/unnamed/part_000 and src/unnamed/part_001 modelled where they differ),
together with theorems settling the specification's claims about the
history lookup, content extraction, diff orchestration, external tool
invocation and binary resolution.

External collaborators (the filesystem, the editor, JSON.parse, the quick
pick, the workspace configuration) are passed in as explicit parameters;
the functions of the extension are translated line by line.
-/

namespace BlvDiff

/-- JS `String.prototype.startsWith`, modelled structurally on the character
list so that concrete instances evaluate. -/
def strStartsWith (s t : String) : Bool := t.data.isPrefixOf s.data

/-- JS `String.prototype.endsWith`, modelled structurally. -/
def strEndsWith (s t : String) : Bool := t.data.isSuffixOf s.data

/-- Drop the last `n` characters (used for stripping a matched `.py`). -/
def strDropRight (s : String) (n : Nat) : String := ⟨s.data.take (s.data.length - n)⟩

/-- JS `String.prototype.trim`: remove leading and trailing whitespace. -/
def strTrim (s : String) : String :=
  ⟨((s.data.dropWhile Char.isWhitespace).reverse.dropWhile Char.isWhitespace).reverse⟩

/-- Emptiness of a string. -/
def strIsEmpty (s : String) : Bool := s.data.isEmpty

/-- Node `path.join` of two segments, for slash-separated paths. -/
def pathJoin (a b : String) : String := a ++ "/" ++ b

/-- Node `path.basename`: the final slash-separated segment of a path. -/
def pathBasename (p : String) : String :=
  ⟨(p.data.reverse.takeWhile (fun c => c != '/')).reverse⟩

/-- `scriptName.replace(/\.py$/, '')`: strip one trailing `.py` if present
(extension.js line 168). -/
def stripPy (s : String) : String := if strEndsWith s ".py" then strDropRight s 3 else s

/-- A directory entry as seen by `fsp.readdir` plus the `fs.statSync(...).mtime`
the code immediately attaches to it.  The modification time is modelled as an
integer (milliseconds), which is what the JS `Date` subtraction in the sort
comparator produces. -/
structure FileEntry where
  name : String
  mtime : Int
deriving Repr, DecidableEq

/-- The observable filesystem for directory listing: a partition directory path
maps to its entries, or to `none` when `fsp.readdir` throws (directory missing
or unreadable). -/
def FS : Type := String → Option (List FileEntry)

/-- A snapshot candidate: absolute file path and modification time
(the `{ file, mtime }` records built in `findLatest`). -/
structure Candidate where
  file : String
  mtime : Int
deriving Repr, DecidableEq

/-- `path.join(os.homedir(), 'blvflag', 'tool', 'history')` (extension.js line 169). -/
def histRoot (home : String) : String :=
  pathJoin (pathJoin (pathJoin home "blvflag") "tool") "history"

/-- The two searched partitions, `['err_history', 'std_history']` (line 170). -/
def historyDirs : List String := ["err_history", "std_history"]

/-- The filter of `findLatest` line 178:
`f.startsWith(baseName + '_') && f.endsWith('.json')`. -/
def matchesBase (baseName f : String) : Bool :=
  strStartsWith f (baseName ++ "_") && strEndsWith f ".json"

/-- The candidates contributed by one partition directory: the filtered,
stat-decorated listing, or nothing at all when the listing throws
(the empty `catch` of lines 181-183). -/
def partitionCandidates (fs : FS) (histDir baseName : String) : List Candidate :=
  match fs histDir with
  | none => []
  | some files =>
      (files.filter (fun f => matchesBase baseName f.name)).map
        (fun f => ⟨pathJoin histDir f.name, f.mtime⟩)

/-- The `ops` list accumulated by the `for (const dir of dirs)` loop of
`findLatest` (lines 172-184). -/
def findLatestOps (home : String) (fs : FS) (scriptName : String) : List Candidate :=
  let baseName := stripPy scriptName
  historyDirs.foldl
    (fun ops dir => ops ++ partitionCandidates fs (pathJoin (histRoot home) dir) baseName)
    []

/-- The sort comparator `(a, b) => b.mtime - a.mtime` (line 187): `a` is placed
before `b` exactly when `a.mtime ≥ b.mtime`, so the newest candidate comes
first.  JS `Array.prototype.sort` is a stable sort, modelled by `List.mergeSort`. -/
def newerFirst (a b : Candidate) : Bool := b.mtime ≤ a.mtime

/-- `findLatest` (extension.js lines 167-189): gather candidates from every
partition, return `null` when there are none, otherwise sort newest-first and
return the first candidate's path. -/
def findLatest (home : String) (fs : FS) (scriptName : String) : Option String :=
  let ops := findLatestOps home fs scriptName
  if ops.length = 0 then none
  else ((ops.mergeSort newerFirst).head?).map Candidate.file

/-- The comparator of the variant lookup, on directory entries: the JS
comparator stats each file name and computes `bTime - aTime`, which with the
listing's attached modification times is descending order by mtime. -/
def newerFirstEntry (a b : FileEntry) : Bool := b.mtime ≤ a.mtime

/-- `findLatestHistory`, the variant lookup of src/unnamed/part_001
(lines 96-117): it searches only the `err_history` partition, with its whole
body inside one `try`, so an unlistable directory makes it return `null`;
otherwise it filters the listing by the same name pattern, returns `null` on
no match, sorts the matching names newest-first by their stat mtimes, and
returns the first name joined to the directory.  `std_history` is never
consulted. -/
def findLatestHistory (home : String) (fs : FS) (scriptName : String) : Option String :=
  let baseName := stripPy scriptName
  let histDir := pathJoin (histRoot home) "err_history"
  match fs histDir with
  | none => none
  | some files =>
    let candidates := files.filter (fun f => matchesBase baseName f.name)
    if candidates.length = 0 then none
    else ((candidates.mergeSort newerFirstEntry).head?).map (fun f => pathJoin histDir f.name)

/-! ### JSON values and the content extractor -/

/-- A parsed JSON value, as produced by `JSON.parse`. -/
inductive JValue where
  | null
  | bool (b : Bool)
  | num (n : Int)
  | str (s : String)
  | arr (elems : List JValue)
  | obj (fields : List (String × JValue))

/-- JS truthiness of a parsed JSON value (what `if (obj.content)` tests). -/
def JValue.truthy : JValue → Bool
  | .null => false
  | .bool b => b
  | .num n => n != 0
  | .str s => !(strIsEmpty s)
  | .arr _ => true
  | .obj _ => true

/-- The result of a JS property access `base.k`: accessing a property of
`null` throws a TypeError; otherwise the access yields the field's value, or
`undefined` (modelled `none`) when the base has no such field. -/
inductive FieldRead where
  | threw
  | value (v : Option JValue)

/-- JS property access on a parsed JSON value. -/
def JValue.field : JValue → String → FieldRead
  | .null, _ => .threw
  | .obj fields, k => .value (fields.lookup k)
  | _, _ => .value none

/-- Truthiness of a possibly-`undefined` value: `undefined` is falsy. -/
def optTruthy : Option JValue → Bool
  | none => false
  | some v => v.truthy

/-- The `try` block of `getHistory` (extension.js lines 194-204): `none` means
an exception escaped to the `catch` (either `JSON.parse` threw, modelled by
`parse raw = none`, or a property access on `null` threw). -/
def getHistoryTry (parse : String → Option JValue) (raw : String) : Option JValue :=
  match parse raw with
  | none => none
  | some o =>
    match o with
    | .str s => some (.str s)
    | _ =>
      match o.field "content" with
      | .threw => none
      | .value c =>
        if optTruthy c then some (c.getD .null)
        else
          match o.field "text" with
          | .threw => none
          | .value t =>
            if optTruthy t then some (t.getD .null)
            else some (.str raw)

/-- `getHistory` (extension.js lines 192-205) applied to the file's raw text:
the `catch` converts any exception into returning the raw content. -/
def getHistory (parse : String → Option JValue) (raw : String) : JValue :=
  match getHistoryTry parse raw with
  | some v => v
  | none => .str raw

/-! ### The diff command (orchestrator) -/

/-- The relevant fields of the active editor's document. -/
structure Document where
  languageId : String
  fsPath : String
  text : String

/-- `getScriptPath` (extension.js lines 116-127): for a Python-language
document whose path ends in `.ipynb` the text is written to `tmpdir/temp.py`
and that temporary path is used; otherwise the document's own path is used
and nothing is written.  Returns the chosen path and the write performed. -/
def getScriptPath (tmpdir : String) (doc : Document) : String × List (String × JValue) :=
  if doc.languageId = "python" && strEndsWith doc.fsPath ".ipynb" then
    let tempFile := pathJoin tmpdir "temp.py"
    (tempFile, [(tempFile, .str doc.text)])
  else
    (doc.fsPath, [])

/-- The deterministic temporary paths of the side-by-side branch
(extension.js lines 64-65): they depend only on the temp directory and the
script's name. -/
def sideBySidePaths (tmpdir scriptName : String) : String × String :=
  (pathJoin tmpdir (scriptName ++ ".old.py"), pathJoin tmpdir (scriptName ++ ".current.py"))

/-- The external collaborators of one `blvdiff.diff` invocation: the active
editor, the home directory and filesystem listing for `findLatest`, the quick
pick answer, the resolved binary, file reading and `JSON.parse` for
`getHistory`, and `os.tmpdir()`. -/
structure DiffEnv where
  editor : Option Document
  home : String
  fs : FS
  choice : Option String
  bin : String
  read : String → String
  parse : String → Option JValue
  tmpdir : String

/-- The terminal outcome of one `blvdiff.diff` invocation. -/
inductive DiffOutcome where
  | noEditorMsg
  | noHistoryMsg (scriptName : String)
  | cancelled
  | ranTool
  | openedDiff (left right title : String)

/-- Everything one `blvdiff.diff` invocation does that is observable from
outside: which snapshot files it read with `getHistory`, which temporary
files it wrote, which external tool invocations it made, and how it ended. -/
structure DiffTrace where
  historyReads : List String
  writes : List (String × JValue)
  toolRuns : List (String × List String)
  outcome : DiffOutcome

/-- The `blvdiff.diff` command handler (extension.js lines 28-73): resolve the
script path, look up the latest snapshot, bail out with a message when there is
none, ask for the diff mode, bail out silently when the pick is abandoned,
delegate to the external tool for text-based mode, and otherwise extract the
historical content and write both versions to the two temporary paths. -/
def blvdiffDiff (env : DiffEnv) : DiffTrace :=
  match env.editor with
  | none => ⟨[], [], [], .noEditorMsg⟩
  | some doc =>
    let sp := getScriptPath env.tmpdir doc
    let filePath := sp.1
    let scriptName := pathBasename filePath
    match findLatest env.home env.fs scriptName with
    | none => ⟨[], sp.2, [], .noHistoryMsg scriptName⟩
    | some historyPath =>
      match env.choice with
      | none => ⟨[], sp.2, [], .cancelled⟩
      | some choice =>
        if strStartsWith choice "Text" then
          ⟨[], sp.2, [(env.bin, ["--diff", filePath])], .ranTool⟩
        else
          let oldContent := getHistory env.parse (env.read historyPath)
          let newContent := JValue.str doc.text
          let ps := sideBySidePaths env.tmpdir scriptName
          ⟨[historyPath], sp.2 ++ [(ps.1, oldContent), (ps.2, newContent)], [],
            .openedDiff ps.1 ps.2 (scriptName ++ ": Previous Version <-> Current Version")⟩

/-- A file store, for stating that repeated diff invocations overwrite their
temporary artifacts instead of accumulating new files. -/
def Store : Type := String → Option JValue

/-- Apply a list of `fsp.writeFile` calls in order; writing to an existing
path overwrites it. -/
def applyWrites (s : Store) (ws : List (String × JValue)) : Store :=
  ws.foldl (fun s w => fun p => if p = w.1 then some w.2 else s p) s

/-! ### The external tool invoker -/

/-- The observable events of a spawned process, in the order they are
delivered to the registered handlers. -/
inductive ProcEvent where
  | stdoutData (s : String)
  | stderrData (s : String)
  | errored (msg : String)
  | closed (code : Int)

/-- What the invoker's handlers have produced: the text appended to the
output channel and the error notifications shown to the user. -/
structure ToolReport where
  log : String
  errors : List String
deriving Repr, DecidableEq

/-- One event step of `runBlvDiff` as written in src/blvdiff/extension.js
(lines 157-165): stdout and stderr are appended to the output channel, a
start failure shows an error notification with the cause, and no `close`
handler is registered, so process exit produces nothing. -/
def runBlvDiffStep (r : ToolReport) : ProcEvent → ToolReport
  | .stdoutData s => { r with log := r.log ++ s }
  | .stderrData s => { r with log := r.log ++ s }
  | .errored m => { r with errors := r.errors ++ ["BLVDIFF error: " ++ m] }
  | .closed _ => r

/-- `runBlvDiff` of src/blvdiff/extension.js over a whole event sequence,
starting from the cleared output channel. -/
def runBlvDiff (events : List ProcEvent) : ToolReport :=
  events.foldl runBlvDiffStep ⟨"", []⟩

/-- One event step of the variant `runBlvDiff` in src/unnamed/part_000
(lines 141-151): same as the main version, plus a `close` handler appending
the exit code to the output channel as a log line. -/
def runBlvDiffV0Step (r : ToolReport) : ProcEvent → ToolReport
  | .stdoutData s => { r with log := r.log ++ s }
  | .stderrData s => { r with log := r.log ++ s }
  | .errored m => { r with errors := r.errors ++ ["BLVDIFF error: " ++ m] }
  | .closed c => { r with log := r.log ++ "\nExited with code " ++ toString c ++ "\n" }

/-- The variant `runBlvDiff` of src/unnamed/part_000 over a whole event
sequence. -/
def runBlvDiffV0 (events : List ProcEvent) : ToolReport :=
  events.foldl runBlvDiffV0Step ⟨"", []⟩

/-! ### Binary resolution -/

/-- The ambient state read by `getBinary` (extension.js lines 130-154): the
`blvflag.binaryPath` workspace setting (`none` models `undefined`),
`process.platform` and `process.arch`, the extension's install path, and
which paths pass the `fsp.access(..., X_OK)` check. -/
structure BinEnv where
  configured : Option String
  platform : String
  arch : String
  extensionPath : String
  isExecutable : String → Bool

/-- The bundled per-platform candidate
`path.join(context.extensionPath, 'bin', platform + '-' + arch, binName)`
(extension.js lines 139-146). -/
def bundledCandidate (env : BinEnv) : String :=
  let binName := if env.platform = "win32" then "blvflag.exe" else "blvflag"
  pathJoin (pathJoin (pathJoin env.extensionPath "bin") (env.platform ++ "-" ++ env.arch)) binName

/-- `getBinary` (extension.js lines 130-154): a configured, non-blank
`blvflag.binaryPath` is returned trimmed; otherwise the bundled candidate is
returned when it is executable; otherwise the bare name `blvflag` is returned
for PATH lookup.  `configured && configured.trim()` is truthy exactly when the
setting is present and trims to a non-empty string. -/
def getBinary (env : BinEnv) : String :=
  match env.configured with
  | some c =>
    if !(strIsEmpty c) && !(strIsEmpty (strTrim c)) then strTrim c
    else if env.isExecutable (bundledCandidate env) then bundledCandidate env
    else "blvflag"
  | none =>
    if env.isExecutable (bundledCandidate env) then bundledCandidate env
    else "blvflag"

/-! ### Shared lemmas -/

/-- When the accumulated candidate list is a singleton, `findLatest` returns
that candidate's path (the sort of a one-element list is itself). -/
theorem findLatest_of_ops_singleton (home : String) (fs : FS) (scriptName : String)
    (c : Candidate) (h : findLatestOps home fs scriptName = [c]) :
    findLatest home fs scriptName = some c.file := by
  simp [findLatest, h]

/-- The loop of `findLatest` visits exactly the two partitions, in order. -/
theorem findLatestOps_eq_append (home : String) (fs : FS) (scriptName : String) :
    findLatestOps home fs scriptName =
      partitionCandidates fs (pathJoin (histRoot home) "err_history") (stripPy scriptName) ++
        partitionCandidates fs (pathJoin (histRoot home) "std_history") (stripPy scriptName) :=
  rfl

/-- Transitivity of the sort comparator. -/
theorem newerFirst_trans : ∀ a b c : Candidate, newerFirst a b → newerFirst b c → newerFirst a c := by
  intro a b c hab hbc
  simp only [newerFirst, decide_eq_true_eq] at *
  omega

/-- Totality of the sort comparator. -/
theorem newerFirst_total : ∀ a b : Candidate, newerFirst a b || newerFirst b a := by
  intro a b
  simp only [newerFirst, Bool.or_eq_true, decide_eq_true_eq]
  omega

/-! ### Concrete fixtures used by the witnesses -/

/-- A filesystem in which both partitions are listable and `foo` has one
matching snapshot in each partition, the fresher one in `std_history`. -/
def exFS : FS := fun d =>
  if d = "/h/blvflag/tool/history/err_history" then
    some [⟨"foo_a.json", 5⟩, ⟨"bar_a.json", 9⟩, ⟨"foo_b.txt", 99⟩]
  else if d = "/h/blvflag/tool/history/std_history" then
    some [⟨"foo_b.json", 7⟩]
  else none

/-- A filesystem in which `err_history` cannot be listed and `std_history`
holds exactly one match for `foo`. -/
def exFS3 : FS := fun d =>
  if d = "/h/blvflag/tool/history/std_history" then
    some [⟨"foo_1.json", 4⟩, ⟨"other.json", 6⟩]
  else none

/-! ### Claim theorems -/

/-- C1: for a non-empty candidate set gathered across both partitions
(candidates of either partition are equally eligible members of the one
accumulated list), `findLatest` returns the path of a candidate whose
modification time is maximal; an empty candidate set yields `none` rather
than an error. -/
theorem findLatest_selects_maximum (home : String) (fs : FS) (scriptName : String) :
    findLatestOps home fs scriptName =
      partitionCandidates fs (pathJoin (histRoot home) "err_history") (stripPy scriptName) ++
        partitionCandidates fs (pathJoin (histRoot home) "std_history") (stripPy scriptName) ∧
    (findLatestOps home fs scriptName = [] → findLatest home fs scriptName = none) ∧
    (findLatestOps home fs scriptName ≠ [] →
      ∃ c, c ∈ findLatestOps home fs scriptName ∧
        findLatest home fs scriptName = some c.file ∧
        ∀ d ∈ findLatestOps home fs scriptName, d.mtime ≤ c.mtime) := by
  refine ⟨findLatestOps_eq_append home fs scriptName, fun h => by simp [findLatest, h], fun h => ?_⟩
  have hlen : (findLatestOps home fs scriptName).length ≠ 0 := by
    simpa [List.length_eq_zero] using h
  have hperm := List.mergeSort_perm (findLatestOps home fs scriptName) newerFirst
  have hne : (findLatestOps home fs scriptName).mergeSort newerFirst ≠ [] := by
    intro hnil
    apply h
    have hlen0 := hperm.length_eq
    rw [hnil] at hlen0
    exact List.eq_nil_of_length_eq_zero hlen0.symm
  obtain ⟨c, t, hct⟩ := List.exists_cons_of_ne_nil hne
  have hsorted := List.sorted_mergeSort newerFirst_trans newerFirst_total
    (findLatestOps home fs scriptName)
  rw [hct] at hsorted
  have hhead : ∀ d ∈ t, newerFirst c d := (List.pairwise_cons.mp hsorted).1
  refine ⟨c, ?_, ?_, ?_⟩
  · have hc : c ∈ (findLatestOps home fs scriptName).mergeSort newerFirst := by
      rw [hct]; exact List.mem_cons_self c t
    exact List.mem_mergeSort.mp hc
  · simp only [findLatest]
    rw [if_neg hlen, hct]
    rfl
  · intro d hd
    have hd' : d ∈ (findLatestOps home fs scriptName).mergeSort newerFirst :=
      List.mem_mergeSort.mpr hd
    rw [hct] at hd'
    rcases List.mem_cons.mp hd' with h1 | h2
    · simp [h1]
    · simpa [newerFirst, decide_eq_true_eq] using hhead d h2

/-- Witness for C1 at a concrete filesystem with candidates in both
partitions. -/
theorem findLatest_selects_maximum_witness :
    findLatestOps "/h" exFS "foo.py" ≠ [] ∧
    ∃ c, c ∈ findLatestOps "/h" exFS "foo.py" ∧
      findLatest "/h" exFS "foo.py" = some c.file ∧
      ∀ d ∈ findLatestOps "/h" exFS "foo.py", d.mtime ≤ c.mtime :=
  ⟨by decide, (findLatest_selects_maximum "/h" exFS "foo.py").2.2 (by decide)⟩

/-- C3 counterexample: for the variant lookup `findLatestHistory` cited from
src/unnamed/part_001, the claimed scenario fails: `err_history` cannot be
listed while `std_history` holds exactly one match for `foo`, yet the lookup
returns `none` ("no history") instead of succeeding with that match, because
this variant searches only `err_history` and its `catch` returns `null`. -/
theorem findLatestHistory_counterexample :
    exFS3 "/h/blvflag/tool/history/err_history" = none ∧
    partitionCandidates exFS3 "/h/blvflag/tool/history/std_history" "foo" =
      [⟨"/h/blvflag/tool/history/std_history/foo_1.json", 4⟩] ∧
    findLatestHistory "/h" exFS3 "foo.py" = none :=
  ⟨rfl, rfl, rfl⟩

/-- C3 amended: in the two-partition lookup (`findLatest` of
src/blvdiff/extension.js and src/unnamed/part_000), a partition whose
directory cannot be listed contributes zero candidates and does not abort
the search — when `err_history` is unlistable the candidate set is exactly
`std_history`'s matches, and with one match there the lookup succeeds with
it; in the single-partition variant `findLatestHistory` of
src/unnamed/part_001, an unlistable `err_history` makes the lookup return
`none` regardless of `std_history`'s contents. -/
theorem findLatest_skips_unlistable (home : String) (fs : FS) (scriptName : String)
    (herr : fs (pathJoin (histRoot home) "err_history") = none) :
    findLatestOps home fs scriptName =
      partitionCandidates fs (pathJoin (histRoot home) "std_history") (stripPy scriptName) ∧
    (∀ c, partitionCandidates fs (pathJoin (histRoot home) "std_history") (stripPy scriptName) = [c] →
      findLatest home fs scriptName = some c.file) ∧
    findLatestHistory home fs scriptName = none := by
  have hops : findLatestOps home fs scriptName =
      partitionCandidates fs (pathJoin (histRoot home) "std_history") (stripPy scriptName) := by
    rw [findLatestOps_eq_append]
    simp [partitionCandidates, herr]
  refine ⟨hops, fun c hc => findLatest_of_ops_singleton home fs scriptName c (hops.trans hc), ?_⟩
  simp [findLatestHistory, herr]

/-- Witness for the amended C3: `err_history` missing, one match in
`std_history`: the two-partition lookup finds it, the part_001 variant does
not. -/
theorem findLatest_skips_unlistable_witness :
    findLatest "/h" exFS3 "foo.py" =
      some "/h/blvflag/tool/history/std_history/foo_1.json" ∧
    findLatestHistory "/h" exFS3 "foo.py" = none :=
  ⟨(findLatest_skips_unlistable "/h" exFS3 "foo.py" (by decide)).2.1
      ⟨"/h/blvflag/tool/history/std_history/foo_1.json", 4⟩ (by decide),
    (findLatest_skips_unlistable "/h" exFS3 "foo.py" (by decide)).2.2⟩

/-- A `JSON.parse` model used by the extractor witnesses: one input parses to
an object carrying both recognized fields, one to a bare JSON string, and
everything else fails to parse. -/
def exParse : String → Option JValue := fun r =>
  if r = "snapshot-with-both-fields" then
    some (.obj [("content", .str "from content"), ("text", .str "from text")])
  else if r = "bare-string-snapshot" then some (.str "bare")
  else none

/-- C2: `getHistory` follows the ordered fallback exactly: a bare JSON string
is returned as is; otherwise a truthy (non-empty) `content` field wins even
when a `text` field is also present; otherwise a truthy `text` field is
returned; otherwise the raw file content is returned unmodified. -/
theorem getHistory_fallback_order (parse : String → Option JValue) (raw : String) :
    (∀ s, parse raw = some (.str s) → getHistory parse raw = .str s) ∧
    (∀ o v, parse raw = some o → (∀ s, o ≠ .str s) →
      o.field "content" = .value (some v) → v.truthy →
      getHistory parse raw = v) ∧
    (∀ o c t, parse raw = some o → (∀ s, o ≠ .str s) →
      o.field "content" = .value c → optTruthy c = false →
      o.field "text" = .value (some t) → t.truthy →
      getHistory parse raw = t) ∧
    (∀ o c t, parse raw = some o → (∀ s, o ≠ .str s) →
      o.field "content" = .value c → optTruthy c = false →
      o.field "text" = .value t → optTruthy t = false →
      getHistory parse raw = .str raw) := by
  refine ⟨?_, ?_, ?_, ?_⟩
  · intro s hp
    simp [getHistory, getHistoryTry, hp]
  · intro o v hp hns hc htr
    cases o with
    | str s => exact absurd rfl (hns s)
    | null => simp [JValue.field] at hc
    | bool b => simp [JValue.field] at hc
    | num n => simp [JValue.field] at hc
    | arr xs => simp [JValue.field] at hc
    | obj fields =>
      have hl : fields.lookup "content" = some v := by simpa [JValue.field] using hc
      simp [getHistory, getHistoryTry, hp, JValue.field, hl, optTruthy, htr]
  · intro o c t hp hns hc hcf ht httr
    cases o with
    | str s => exact absurd rfl (hns s)
    | null => simp [JValue.field] at hc
    | bool b => simp [JValue.field] at ht
    | num n => simp [JValue.field] at ht
    | arr xs => simp [JValue.field] at ht
    | obj fields =>
      have hlc : fields.lookup "content" = c := by simpa [JValue.field] using hc
      have hlt : fields.lookup "text" = some t := by simpa [JValue.field] using ht
      rcases c with _ | v
      · simp [getHistory, getHistoryTry, hp, JValue.field, hlc, hlt, optTruthy, httr]
      · have hv : v.truthy = false := by simpa [optTruthy] using hcf
        simp [getHistory, getHistoryTry, hp, JValue.field, hlc, hlt, optTruthy, httr, hv]
  · intro o c t hp hns hc hcf ht htf
    cases o with
    | str s => exact absurd rfl (hns s)
    | null => simp [JValue.field] at hc
    | bool b =>
      have hlc : c = none := by simpa [JValue.field] using hc.symm
      have hlt : t = none := by simpa [JValue.field] using ht.symm
      simp [getHistory, getHistoryTry, hp, JValue.field, hlc, hlt, optTruthy]
    | num n =>
      have hlc : c = none := by simpa [JValue.field] using hc.symm
      have hlt : t = none := by simpa [JValue.field] using ht.symm
      simp [getHistory, getHistoryTry, hp, JValue.field, hlc, hlt, optTruthy]
    | arr xs =>
      have hlc : c = none := by simpa [JValue.field] using hc.symm
      have hlt : t = none := by simpa [JValue.field] using ht.symm
      simp [getHistory, getHistoryTry, hp, JValue.field, hlc, hlt, optTruthy]
    | obj fields =>
      have hlc : fields.lookup "content" = c := by simpa [JValue.field] using hc
      have hlt : fields.lookup "text" = t := by simpa [JValue.field] using ht
      rcases c with _ | v <;> rcases t with _ | w
      · simp [getHistory, getHistoryTry, hp, JValue.field, hlc, hlt, optTruthy]
      · have hw : w.truthy = false := by simpa [optTruthy] using htf
        simp [getHistory, getHistoryTry, hp, JValue.field, hlc, hlt, optTruthy, hw]
      · have hv : v.truthy = false := by simpa [optTruthy] using hcf
        simp [getHistory, getHistoryTry, hp, JValue.field, hlc, hlt, optTruthy, hv]
      · have hv : v.truthy = false := by simpa [optTruthy] using hcf
        have hw : w.truthy = false := by simpa [optTruthy] using htf
        simp [getHistory, getHistoryTry, hp, JValue.field, hlc, hlt, optTruthy, hv, hw]

/-- Witness for C2: the `content` field wins over a present `text` field, and
a bare JSON string is returned exactly. -/
theorem getHistory_fallback_order_witness :
    getHistory exParse "snapshot-with-both-fields" = .str "from content" ∧
    getHistory exParse "bare-string-snapshot" = .str "bare" :=
  ⟨(getHistory_fallback_order exParse "snapshot-with-both-fields").2.1
      (.obj [("content", .str "from content"), ("text", .str "from text")])
      (.str "from content") rfl (fun _ h => JValue.noConfusion h) rfl rfl,
    (getHistory_fallback_order exParse "bare-string-snapshot").1 "bare" rfl⟩

/-- C5: the extractor is total on the file's text and never propagates an
error: any exception inside the `try` block (a parse failure, or the property
access throwing on a `null` parse) is silently converted into returning the
raw content, and in every case the caller receives either the raw text, the
parsed bare string, or a recognized field's value. -/
theorem getHistory_never_fails (parse : String → Option JValue) (raw : String) :
    (getHistoryTry parse raw = none → getHistory parse raw = .str raw) ∧
    (parse raw = none → getHistory parse raw = .str raw) ∧
    (parse raw = some .null → getHistory parse raw = .str raw) ∧
    (getHistory parse raw = .str raw ∨
      (∃ s, parse raw = some (.str s) ∧ getHistory parse raw = .str s) ∨
      (∃ o v, parse raw = some o ∧
        (o.field "content" = .value (some v) ∨ o.field "text" = .value (some v)) ∧
        getHistory parse raw = v)) := by
  refine ⟨fun h => by simp [getHistory, h], fun h => by simp [getHistory, getHistoryTry, h],
    fun h => by simp [getHistory, getHistoryTry, h, JValue.field], ?_⟩
  rcases hp : parse raw with _ | o
  · left; simp [getHistory, getHistoryTry, hp]
  · cases o with
    | null => left; simp [getHistory, getHistoryTry, hp, JValue.field]
    | str s => exact Or.inr (Or.inl ⟨s, rfl, by simp [getHistory, getHistoryTry, hp]⟩)
    | bool b => left; simp [getHistory, getHistoryTry, hp, JValue.field, optTruthy]
    | num n => left; simp [getHistory, getHistoryTry, hp, JValue.field, optTruthy]
    | arr xs => left; simp [getHistory, getHistoryTry, hp, JValue.field, optTruthy]
    | obj fields =>
      rcases hc : fields.lookup "content" with _ | v
      · rcases ht : fields.lookup "text" with _ | w
        · left; simp [getHistory, getHistoryTry, hp, JValue.field, hc, ht, optTruthy]
        · by_cases hw : w.truthy
          · refine Or.inr (Or.inr ⟨.obj fields, w, rfl, Or.inr (by simp [JValue.field, ht]), ?_⟩)
            simp [getHistory, getHistoryTry, hp, JValue.field, hc, ht, optTruthy, hw]
          · left; simp [getHistory, getHistoryTry, hp, JValue.field, hc, ht, optTruthy, hw]
      · by_cases hv : v.truthy
        · refine Or.inr (Or.inr ⟨.obj fields, v, rfl, Or.inl (by simp [JValue.field, hc]), ?_⟩)
          simp [getHistory, getHistoryTry, hp, JValue.field, hc, optTruthy, hv]
        · rcases ht : fields.lookup "text" with _ | w
          · left; simp [getHistory, getHistoryTry, hp, JValue.field, hc, ht, optTruthy, hv]
          · by_cases hw : w.truthy
            · refine Or.inr (Or.inr ⟨.obj fields, w, rfl, Or.inr (by simp [JValue.field, ht]), ?_⟩)
              simp [getHistory, getHistoryTry, hp, JValue.field, hc, ht, optTruthy, hv, hw]
            · left; simp [getHistory, getHistoryTry, hp, JValue.field, hc, ht, optTruthy, hv, hw]

/-- Witness for C5: a file that is not valid JSON comes back verbatim. -/
theorem getHistory_never_fails_witness :
    getHistory (fun _ => none) "plain old text" = .str "plain old text" :=
  (getHistory_never_fails (fun _ => none) "plain old text").2.1 rfl

/-! ### Orchestrator lemmas and fixtures -/

/-- Documents agreeing on language and path resolve to the same script path
and to temporary writes at the same paths (only the written text can differ). -/
theorem getScriptPath_agree (t : String) (d1 d2 : Document)
    (hl : d1.languageId = d2.languageId) (hp : d1.fsPath = d2.fsPath) :
    (getScriptPath t d1).1 = (getScriptPath t d2).1 ∧
    (getScriptPath t d1).2.map Prod.fst = (getScriptPath t d2).2.map Prod.fst := by
  unfold getScriptPath
  rw [hl, hp]
  rcases Bool.eq_false_or_eq_true
      (decide (d2.languageId = "python") && strEndsWith d2.fsPath ".ipynb") with h | h <;>
    simp [h]

/-- A path is present after applying a write list exactly when it was written
or was already present. -/
theorem applyWrites_isSome (ws : List (String × JValue)) (s : Store) (p : String) :
    (applyWrites s ws p).isSome ↔ (p ∈ ws.map Prod.fst ∨ (s p).isSome) := by
  induction ws generalizing s with
  | nil => simp [applyWrites]
  | cons w ws ih =>
    have hstep : applyWrites s (w :: ws) =
        applyWrites (fun q => if q = w.1 then some w.2 else s q) ws := rfl
    rw [hstep, ih]
    by_cases hpw : p = w.1
    · subst hpw; simp
    · simp [hpw]

/-- An ordinary Python document (no notebook temp materialization). -/
def exDoc : Document := ⟨"python", "/w/foo.py", "print(2)"⟩

/-- The same script opened later with different buffer contents. -/
def exDocV2 : Document := ⟨"python", "/w/foo.py", "print(3)"⟩

/-- A notebook-cell document: Python language, `.ipynb` backing file. -/
def exNotebookDoc : Document := ⟨"python", "/w/analysis.ipynb", "print(1)"⟩

/-- A text-based-mode invocation environment over `exFS3`. -/
def exEnvText : DiffEnv :=
  ⟨some exDoc, "/h", exFS3, some "Text-based", "blvflag", fun _ => "", fun _ => none, "/tmp"⟩

/-- An invocation in which the quick pick was abandoned. -/
def exEnvCancel : DiffEnv :=
  ⟨some exDoc, "/h", exFS3, none, "blvflag", fun _ => "", fun _ => none, "/tmp"⟩

/-- A notebook invocation over a filesystem with no history at all. -/
def exEnvNoHistoryNb : DiffEnv :=
  ⟨some exNotebookDoc, "/h", fun _ => none, none, "blvflag", fun _ => "", fun _ => none, "/tmp"⟩

/-- An ordinary-file invocation over a filesystem with no history at all. -/
def exEnvNoHistoryPy : DiffEnv :=
  ⟨some exDoc, "/h", fun _ => none, none, "blvflag", fun _ => "", fun _ => none, "/tmp"⟩

/-- First side-by-side invocation. -/
def exEnvSbs1 : DiffEnv :=
  ⟨some exDoc, "/h", exFS3, some "Side-by-side", "blvflag", fun _ => "old one", fun _ => none, "/tmp"⟩

/-- Second side-by-side invocation: edited buffer, different history content. -/
def exEnvSbs2 : DiffEnv :=
  ⟨some exDocV2, "/h", exFS3, some "Side-by-side", "blvflag", fun _ => "old two", fun _ => none, "/tmp"⟩

/-- The snapshot path `findLatest` returns over `exFS3`. -/
def exFoundPath : String := "/h/blvflag/tool/history/std_history/foo_1.json"

/-- C4: once a history path is found and the user picks the text-based mode,
the command delegates to the external tool with the `--diff` flag and the
script's file path, performing no temporary writes beyond script-path
resolution and no `getHistory` content read; the content read happens exactly
in the side-by-side branch. -/
theorem diff_textBased_delegates (env : DiffEnv) (doc : Document) (p c : String)
    (hed : env.editor = some doc)
    (hfound : findLatest env.home env.fs (pathBasename (getScriptPath env.tmpdir doc).1) = some p)
    (hchoice : env.choice = some c) :
    (strStartsWith c "Text" = true →
      blvdiffDiff env =
        ⟨[], (getScriptPath env.tmpdir doc).2,
          [(env.bin, ["--diff", (getScriptPath env.tmpdir doc).1])], .ranTool⟩) ∧
    (strStartsWith c "Text" = false →
      (blvdiffDiff env).historyReads = [p]) := by
  constructor <;> intro hc <;> simp [blvdiffDiff, hed, hfound, hchoice, hc]

/-- Witness for C4 at a concrete text-based invocation. -/
theorem diff_textBased_delegates_witness :
    blvdiffDiff exEnvText = ⟨[], [], [("blvflag", ["--diff", "/w/foo.py"])], .ranTool⟩ :=
  (diff_textBased_delegates exEnvText exDoc exFoundPath "Text-based" rfl
      (findLatest_of_ops_singleton _ _ _ ⟨exFoundPath, 4⟩ (by decide)) rfl).1 rfl

/-- C6 counterexample: for a notebook-cell document with no history anywhere,
the command does report that no history was found, but it has already written
the notebook text to `tmpdir/temp.py`, so "performs no temporary-file writes"
fails as stated. -/
theorem diff_noHistory_counterexample :
    (blvdiffDiff exEnvNoHistoryNb).outcome = .noHistoryMsg "temp.py" ∧
    (blvdiffDiff exEnvNoHistoryNb).writes = [("/tmp/temp.py", .str "print(1)")] :=
  ⟨rfl, rfl⟩

/-- C6 amended: when no candidate matches in any partition the command reports
"no history found" with no external-tool invocation and no history read, and
its only writes are those of script-path resolution — none at all for an
ordinary (non-notebook) document. -/
theorem diff_noHistory_noop (env : DiffEnv) (doc : Document)
    (hed : env.editor = some doc)
    (hnone : findLatestOps env.home env.fs (pathBasename (getScriptPath env.tmpdir doc).1) = []) :
    blvdiffDiff env =
      ⟨[], (getScriptPath env.tmpdir doc).2, [],
        .noHistoryMsg (pathBasename (getScriptPath env.tmpdir doc).1)⟩ ∧
    ((getScriptPath env.tmpdir doc).2 = [] → (blvdiffDiff env).writes = []) := by
  have hfl : findLatest env.home env.fs (pathBasename (getScriptPath env.tmpdir doc).1) = none := by
    simp [findLatest, hnone]
  have h : blvdiffDiff env =
      ⟨[], (getScriptPath env.tmpdir doc).2, [],
        .noHistoryMsg (pathBasename (getScriptPath env.tmpdir doc).1)⟩ := by
    simp [blvdiffDiff, hed, hfl]
  exact ⟨h, fun h2 => by rw [h]; exact h2⟩

/-- Witness for the amended C6: ordinary file, empty history, no writes. -/
theorem diff_noHistory_noop_witness :
    blvdiffDiff exEnvNoHistoryPy = ⟨[], [], [], .noHistoryMsg "foo.py"⟩ :=
  (diff_noHistory_noop exEnvNoHistoryPy exDoc rfl (by decide)).1

/-- C8: two side-by-side invocations for the same script (same language,
path and temp directory; buffer text, history contents and filesystem may
all differ) write to exactly the same paths, and applying the second
invocation's writes after the first creates no path that the first had not
already created — the artifacts are overwritten, not accumulated. -/
theorem diff_sideBySide_deterministic_paths
    (env1 env2 : DiffEnv) (doc1 doc2 : Document) (p1 p2 c1 c2 : String)
    (htmp : env1.tmpdir = env2.tmpdir)
    (hlang : doc1.languageId = doc2.languageId) (hpath : doc1.fsPath = doc2.fsPath)
    (hed1 : env1.editor = some doc1) (hed2 : env2.editor = some doc2)
    (hfound1 : findLatest env1.home env1.fs (pathBasename (getScriptPath env1.tmpdir doc1).1) = some p1)
    (hfound2 : findLatest env2.home env2.fs (pathBasename (getScriptPath env2.tmpdir doc2).1) = some p2)
    (hch1 : env1.choice = some c1) (hch2 : env2.choice = some c2)
    (ht1 : strStartsWith c1 "Text" = false) (ht2 : strStartsWith c2 "Text" = false) :
    (blvdiffDiff env1).writes.map Prod.fst = (blvdiffDiff env2).writes.map Prod.fst ∧
    ∀ (store : Store) (p : String),
      (applyWrites (applyWrites store (blvdiffDiff env1).writes) (blvdiffDiff env2).writes p).isSome ↔
        (applyWrites store (blvdiffDiff env1).writes p).isSome := by
  obtain ⟨hfst, hsnd⟩ := getScriptPath_agree env2.tmpdir doc1 doc2 hlang hpath
  have hw1 : (blvdiffDiff env1).writes =
      (getScriptPath env1.tmpdir doc1).2 ++
        [((sideBySidePaths env1.tmpdir (pathBasename (getScriptPath env1.tmpdir doc1).1)).1,
            getHistory env1.parse (env1.read p1)),
          ((sideBySidePaths env1.tmpdir (pathBasename (getScriptPath env1.tmpdir doc1).1)).2,
            .str doc1.text)] := by
    simp [blvdiffDiff, hed1, hfound1, hch1, ht1]
  have hw2 : (blvdiffDiff env2).writes =
      (getScriptPath env2.tmpdir doc2).2 ++
        [((sideBySidePaths env2.tmpdir (pathBasename (getScriptPath env2.tmpdir doc2).1)).1,
            getHistory env2.parse (env2.read p2)),
          ((sideBySidePaths env2.tmpdir (pathBasename (getScriptPath env2.tmpdir doc2).1)).2,
            .str doc2.text)] := by
    simp [blvdiffDiff, hed2, hfound2, hch2, ht2]
  have hmap : (blvdiffDiff env1).writes.map Prod.fst = (blvdiffDiff env2).writes.map Prod.fst := by
    rw [hw1, hw2]
    simp only [List.map_append, List.map_cons, List.map_nil]
    rw [htmp, hfst, hsnd]
  refine ⟨hmap, fun store p => ?_⟩
  simp only [applyWrites_isSome]
  rw [← hmap]
  tauto

/-- Witness for C8: two concrete invocations of the same script. -/
theorem diff_sideBySide_deterministic_paths_witness :
    (blvdiffDiff exEnvSbs1).writes.map Prod.fst = (blvdiffDiff exEnvSbs2).writes.map Prod.fst :=
  (diff_sideBySide_deterministic_paths exEnvSbs1 exEnvSbs2 exDoc exDocV2
      exFoundPath exFoundPath "Side-by-side" "Side-by-side" rfl rfl rfl rfl rfl
      (findLatest_of_ops_singleton _ _ _ ⟨exFoundPath, 4⟩ (by decide))
      (findLatest_of_ops_singleton _ _ _ ⟨exFoundPath, 4⟩ (by decide))
      rfl rfl rfl rfl).1

/-- C9: when the quick pick is abandoned after a history path was found, the
command stops: no history content read, no external invocation, no writes
beyond the ones script-path resolution already made (none for an ordinary
file), and the neutral cancelled outcome. -/
theorem diff_cancel_noop (env : DiffEnv) (doc : Document) (p : String)
    (hed : env.editor = some doc)
    (hfound : findLatest env.home env.fs (pathBasename (getScriptPath env.tmpdir doc).1) = some p)
    (hchoice : env.choice = none) :
    blvdiffDiff env = ⟨[], (getScriptPath env.tmpdir doc).2, [], .cancelled⟩ ∧
    ((getScriptPath env.tmpdir doc).2 = [] → (blvdiffDiff env).writes = []) := by
  have h : blvdiffDiff env = ⟨[], (getScriptPath env.tmpdir doc).2, [], .cancelled⟩ := by
    simp [blvdiffDiff, hed, hfound, hchoice]
  exact ⟨h, fun h2 => by rw [h]; exact h2⟩

/-- Witness for C9 at a concrete abandoned invocation. -/
theorem diff_cancel_noop_witness :
    blvdiffDiff exEnvCancel = ⟨[], [], [], .cancelled⟩ :=
  (diff_cancel_noop exEnvCancel exDoc exFoundPath rfl
    (findLatest_of_ops_singleton _ _ _ ⟨exFoundPath, 4⟩ (by decide)) rfl).1

/-- C7 counterexample: in src/blvdiff/extension.js `runBlvDiff` registers no
`close` handler, so a process that runs and exits with status 2 appends
nothing at all to the output log — the exit code is not reported, contrary
to the claim that it is appended as informational text. -/
theorem runBlvDiff_exit_counterexample :
    runBlvDiff [ProcEvent.closed 2] = ⟨"", []⟩ := rfl

/-- C7 amended: a start failure is surfaced as an explicit error notification
containing the underlying cause and is never mixed into the log, while a
non-zero exit is never escalated as an error: in src/blvdiff/extension.js it
produces no report at all (no `close` handler), and in the variant
src/unnamed/part_000 the exit code is appended to the log as informational
text. -/
theorem runBlvDiff_error_reporting (m out : String) (c : Int) :
    runBlvDiff [ProcEvent.stdoutData out, ProcEvent.errored m] =
      ⟨out, ["BLVDIFF error: " ++ m]⟩ ∧
    runBlvDiff [ProcEvent.stdoutData out, ProcEvent.closed c] = ⟨out, []⟩ ∧
    runBlvDiffV0 [ProcEvent.stdoutData out, ProcEvent.closed c] =
      ⟨out ++ "\nExited with code " ++ toString c ++ "\n", []⟩ := by
  refine ⟨?_, ?_, ?_⟩ <;>
    simp [runBlvDiff, runBlvDiffV0, runBlvDiffStep, runBlvDiffV0Step]

/-- C10: binary resolution precedence: a configured setting that trims to a
non-blank string is returned trimmed, with no executability check consulted
(the result is the same for every executability oracle); with the setting
absent or blank, the bundled per-platform candidate is returned exactly when
it is executable, and the bare name `blvflag` otherwise. -/
theorem getBinary_precedence (env : BinEnv) :
    (∀ c, env.configured = some c → strIsEmpty (strTrim c) = false →
      getBinary env = strTrim c ∧
      ∀ ex : String → Bool,
        getBinary ⟨env.configured, env.platform, env.arch, env.extensionPath, ex⟩ = strTrim c) ∧
    (env.configured = none →
      getBinary env =
        (if env.isExecutable (bundledCandidate env) then bundledCandidate env else "blvflag")) ∧
    (∀ c, env.configured = some c → strIsEmpty (strTrim c) = true →
      getBinary env =
        (if env.isExecutable (bundledCandidate env) then bundledCandidate env else "blvflag")) := by
  refine ⟨?_, ?_, ?_⟩
  · intro c hc htr
    have hce : strIsEmpty c = false := by
      rcases c with ⟨l⟩
      cases l with
      | nil => simp [strTrim, strIsEmpty] at htr
      | cons a l => simp [strIsEmpty]
    exact ⟨by simp [getBinary, hc, hce, htr], fun ex => by simp [getBinary, hc, hce, htr]⟩
  · intro hc
    simp [getBinary, hc]
  · intro c hc htr
    simp [getBinary, hc, htr]

/-- A configured, padded binary path; nothing is executable. -/
def exBinEnv : BinEnv := ⟨some "  /opt/blvflag-custom  ", "linux", "x64", "/ext", fun _ => false⟩

/-- Witness for C10: the configured setting wins, trimmed. -/
theorem getBinary_precedence_witness :
    getBinary exBinEnv = "/opt/blvflag-custom" :=
  ((getBinary_precedence exBinEnv).1 "  /opt/blvflag-custom  " rfl (by decide)).1

end BlvDiff
